import Mathlib

/-!
Verification of the zoxapp client-side session state machine.

This file is a shallow embedding of the session store
(`src/stores/useAgentStore.ts`, `src/stores/slices/*.ts`), the agent
session controller (`useAgent`), and the request-deduplication guard
(`useRequestDeduplication`), together with theorems about the
state-transition behaviour those modules implement.

Modelling conventions:
* JavaScript arrays become `List`; array indices that can be `-1`
  (e.g. `activeFileIndex`, `findIndex` results) are `Int`.
* `crypto.randomUUID()` and `Date.now()` are environmental inputs and
  are passed explicitly as `newId`/`newTs` parameters.
* The streaming-inactivity `setTimeout` handle is modelled as
  `Option Nat`: `some d` means the timer is armed with `d` ms
  remaining, `none` means it is disarmed.
* An asynchronous backend call (`invoke`) that can reject is modelled
  by a `Bool` parameter saying whether the call succeeded.
-/

inductive MessageRole
  | user
  | model
  | tool
deriving DecidableEq, Repr

structure Message where
  id : Nat
  role : MessageRole
  content : String
  timestamp : Nat
deriving DecidableEq, Repr

inductive AgentMode
  | chat
  | turbo
deriving DecidableEq, Repr

inductive AgentStatus
  | idle
  | thinking
  | executing
  | awaiting_approval
  | error
deriving DecidableEq, Repr

inductive ConnectionMode
  | cloud
  | offline
deriving DecidableEq, Repr

inductive SetupStatusKind
  | complete
  | downloading_binaries
  | downloading_model
  | needs_setup
deriving DecidableEq, Repr

inductive GpuType
  | nvidia
  | amd
  | intel
  | cpu
deriving DecidableEq, Repr

structure GpuInfo where
  type : GpuType
  name : String
  vram_mb : Option Nat
deriving DecidableEq, Repr

inductive DownloadState
  | downloading
  | paused
  | resuming
  | completed
  | error
deriving DecidableEq, Repr

inductive DownloadStep
  | binaries
  | model
deriving DecidableEq, Repr

structure DownloadProgress where
  step : DownloadStep
  percent : Int
  speed_mbps : Int
  eta_seconds : Int
  state : DownloadState
deriving DecidableEq, Repr

structure PendingTool where
  name : String
  args : String
deriving DecidableEq, Repr

inductive FileSource
  | user
  | agent
deriving DecidableEq, Repr

structure EditorFile where
  path : String
  name : String
  language : String
  content : Option String
  isModified : Bool
  source : FileSource
deriving DecidableEq, Repr

structure ConversationMeta where
  id : String
  title : String
  createdAt : String
  updatedAt : String
  messageCount : Nat
  mode : String
deriving DecidableEq, Repr

/-- The full state held by `useAgentStore` (`useAgentStore.ts`). -/
structure AgentState where
  mode : AgentMode
  status : AgentStatus
  isStreaming : Bool
  connectionMode : ConnectionMode
  isModelLoaded : Bool
  modelLoadProgress : Option Int
  setupStatus : Option SetupStatusKind
  downloadProgress : Option DownloadProgress
  detectedGpu : Option GpuInfo
  messages : List Message
  pendingTool : Option PendingTool
  thinkingText : String
  openFiles : List EditorFile
  activeFileIndex : Int
  conversations : List ConversationMeta
  currentConversationId : Option String
deriving DecidableEq, Repr

/-- The initial store state (`useAgentStore.ts`, creation literal). -/
def initialAgentState : AgentState :=
  { mode := .chat
    status := .idle
    isStreaming := false
    connectionMode := .cloud
    isModelLoaded := false
    modelLoadProgress := none
    setupStatus := none
    downloadProgress := none
    detectedGpu := none
    messages := []
    pendingTool := none
    thinkingText := ""
    openFiles := []
    activeFileIndex := -1
    conversations := []
    currentConversationId := none }

/-- `langMap` lookup inside `detectLanguage` (`useAgentStore.ts`). -/
def langMap : String → Option String
  | "ts" => some "typescript"
  | "tsx" => some "typescript"
  | "js" => some "javascript"
  | "jsx" => some "javascript"
  | "py" => some "python"
  | "rs" => some "rust"
  | "go" => some "go"
  | "java" => some "java"
  | "cpp" => some "cpp"
  | "c" => some "c"
  | "html" => some "html"
  | "css" => some "css"
  | "scss" => some "scss"
  | "json" => some "json"
  | "yaml" => some "yaml"
  | "yml" => some "yaml"
  | "md" => some "markdown"
  | "sql" => some "sql"
  | "sh" => some "shell"
  | _ => none

/-- `detectLanguage` (`useAgentStore.ts`): language from the extension,
`plaintext` fallback. -/
def detectLanguage (path : String) : String :=
  let ext := ((path.splitOn ".").getLastD "").toLower
  (langMap ext).getD "plaintext"

/-- `getFileName` (`useAgentStore.ts`): last path segment, the raw path
when the final segment is empty. -/
def getFileName (path : String) : String :=
  let parts := path.split (fun c => c == '/' || c == '\\')
  match parts.getLast? with
  | some s => if s = "" then path else s
  | none => path

/-- JS `Array.prototype.findIndex`, with an explicit running index:
the index of the first element satisfying `pr`, `-1` if none. -/
def findIndexFrom {α : Type} (pr : α → Bool) : Int → List α → Int
  | _, [] => -1
  | i, x :: xs => if pr x then i else findIndexFrom pr (i + 1) xs

/-- JS `arr.filter((_, i) => i !== index)`, with an explicit running
index. -/
def filterExceptIdx {α : Type} (index : Int) : Int → List α → List α
  | _, [] => []
  | i, x :: xs =>
    if i = index then filterExceptIdx index (i + 1) xs
    else x :: filterExceptIdx index (i + 1) xs

/-- JS `arr.map((x, i) => i === index ? g x : x)`, with an explicit
running index. -/
def mapAtIdx {α : Type} (index : Int) (g : α → α) : Int → List α → List α
  | _, [] => []
  | i, x :: xs => (if i = index then g x else x) :: mapAtIdx index g (i + 1) xs

/-- List lookup at a possibly-negative index (JS `arr[i]` view). -/
def getAtInt {α : Type} (l : List α) (i : Int) : Option α :=
  if 0 ≤ i then l.get? i.toNat else none

/- Store mutation operations (`useAgentStore.ts`). -/

def setMode (mode : AgentMode) (s : AgentState) : AgentState :=
  { s with mode := mode }

/-- `setStatus`: besides the transition, clears `thinkingText` when the
next status is idle (`useAgentStore.ts` line 154). -/
def setStatus (status : AgentStatus) (s : AgentState) : AgentState :=
  { s with
    status := status
    thinkingText := if status = .idle then "" else s.thinkingText }

def setStreaming (isStreaming : Bool) (s : AgentState) : AgentState :=
  { s with isStreaming := isStreaming }

def setPendingTool (pendingTool : Option PendingTool) (s : AgentState) : AgentState :=
  { s with pendingTool := pendingTool }

def setThinkingText (thinkingText : String) (s : AgentState) : AgentState :=
  { s with thinkingText := thinkingText }

/-- `addMessage`: append with a fresh id and timestamp. -/
def addMessage (newId newTs : Nat) (role : MessageRole) (content : String)
    (s : AgentState) : AgentState :=
  { s with messages := s.messages ++ [⟨newId, role, content, newTs⟩] }

/-- `updateStreamingMessage` (`useAgentStore.ts` lines 175-198, the same
logic as `updateStreamingMessage` in `messagesSlice`): if the last
message has role `model`, replace its content in place; otherwise append
a new `model` message. -/
def updateStreamingMessage (newId newTs : Nat) (content : String)
    (s : AgentState) : AgentState :=
  match s.messages.getLast? with
  | some m =>
    if m.role = .model then
      { s with messages := s.messages.dropLast ++ [{ m with content := content }] }
    else
      { s with messages := s.messages ++ [⟨newId, .model, content, newTs⟩] }
  | none => { s with messages := s.messages ++ [⟨newId, .model, content, newTs⟩] }

def clearHistory (s : AgentState) : AgentState :=
  { s with messages := [], currentConversationId := none }

/-- `openFile` (`useAgentStore.ts` lines 203-228): activate an existing
entry with the same path, otherwise append a new file and make it
active. -/
def openFile (path : String) (source : FileSource) (content : Option String)
    (s : AgentState) : AgentState :=
  let existingIndex := findIndexFrom (fun f => f.path == path) 0 s.openFiles
  if 0 ≤ existingIndex then
    { s with activeFileIndex := existingIndex }
  else
    let newFile : EditorFile :=
      { path := path
        name := getFileName path
        language := detectLanguage path
        content := content
        isModified := false
        source := source }
    { s with
      openFiles := s.openFiles ++ [newFile]
      activeFileIndex := (s.openFiles.length : Int) }

/-- `closeFile` (`useAgentStore.ts` lines 230-243). -/
def closeFile (index : Int) (s : AgentState) : AgentState :=
  let newFiles := filterExceptIdx index 0 s.openFiles
  let decIndex :=
    if index ≤ s.activeFileIndex then max 0 (s.activeFileIndex - 1)
    else s.activeFileIndex
  let newActiveIndex := if newFiles = [] then -1 else decIndex
  { s with openFiles := newFiles, activeFileIndex := newActiveIndex }

/-- `setActiveFile`: stores the given index with no validation. -/
def setActiveFile (index : Int) (s : AgentState) : AgentState :=
  { s with activeFileIndex := index }

def updateFileContent (index : Int) (content : String) (s : AgentState) : AgentState :=
  { s with
    openFiles :=
      mapAtIdx index (fun f => { f with content := some content, isModified := true })
        0 s.openFiles }

def markFileSaved (index : Int) (s : AgentState) : AgentState :=
  { s with
    openFiles := mapAtIdx index (fun f => { f with isModified := false }) 0 s.openFiles }

/- The agent slice of the sliced store
(`src/stores/slices/agentSlice.ts`, `createAgentSlice`). -/

structure AgentSlice where
  mode : AgentMode
  status : AgentStatus
  isStreaming : Bool
  thinkingText : String
  tokenCount : Nat
deriving DecidableEq, Repr

/-- `createAgentSlice`'s `setStatus`: clears `thinkingText` and resets
`tokenCount` on idle, keeps both otherwise. -/
def AgentSlice.setStatus (status : AgentStatus) (s : AgentSlice) : AgentSlice :=
  { s with
    status := status
    thinkingText := if status = .idle then "" else s.thinkingText
    tokenCount := if status = .idle then 0 else s.tokenCount }

/- String helpers for the status-normalization handler.  JS
`String.prototype.includes` is substring containment. -/

/-- `startsWithCh hay pat`: `hay` begins with `pat`. -/
def startsWithCh : List Char → List Char → Bool
  | _, [] => true
  | [], _ :: _ => false
  | c :: cs, p :: ps => (c == p) && startsWithCh cs ps

/-- `containsSub hay pat`: `pat` occurs contiguously in `hay`; this is
JS `hay.includes(pat)` on the character level. -/
def containsSub : List Char → List Char → Bool
  | [], pat => pat.isEmpty
  | c :: cs, pat => startsWithCh (c :: cs) pat || containsSub cs pat

/-- JS `s.toLowerCase()`, modelled character-wise on the ASCII range
(the keywords the handler matches are all ASCII). -/
def lowerCh (s : String) : List Char :=
  s.data.map Char.toLower

/- The agent session controller (`useAgent` in `useAgent.ts`).  Its
observable state is the store plus the streaming-inactivity timer. -/

/-- `STREAMING_TIMEOUT_MS` (`useAgent.ts`): 2 minutes. -/
def STREAMING_TIMEOUT_MS : Nat := 120000

structure ControllerState where
  store : AgentState
  timer : Option Nat
deriving DecidableEq, Repr

/-- `resetStreamingTimeout`: clear any pending timeout and arm a fresh
one for the full window. -/
def resetStreamingTimeout (cs : ControllerState) : ControllerState :=
  { cs with timer := some STREAMING_TIMEOUT_MS }

/-- `clearStreamingTimeout`: disarm the timer. -/
def clearStreamingTimeout (cs : ControllerState) : ControllerState :=
  { cs with timer := none }

/-- `agent-thinking` listener: set the thinking text and re-arm the
inactivity timer. -/
def handleThinking (payload : String) (cs : ControllerState) : ControllerState :=
  resetStreamingTimeout { cs with store := setThinkingText payload cs.store }

/-- `agent-stream-chunk` listener: merge the accumulated text into the
streaming tail, set `isStreaming`, re-arm the inactivity timer. -/
def handleStreamChunk (newId newTs : Nat) (payload : String)
    (cs : ControllerState) : ControllerState :=
  resetStreamingTimeout
    { cs with
      store := setStreaming true (updateStreamingMessage newId newTs payload cs.store) }

/-- `agent-streaming` listener: set the streaming flag; a `true`
payload additionally forces status `thinking`. -/
def handleStreaming (payload : Bool) (cs : ControllerState) : ControllerState :=
  let st := setStreaming payload cs.store
  { cs with store := if payload then setStatus .thinking st else st }

/-- `agent-status` listener (`useAgent.ts` lines 370-385): lower-case
the payload and normalize by substring match; unmatched strings do
nothing. -/
def handleAgentStatus (payload : String) (cs : ControllerState) : ControllerState :=
  let status := lowerCh payload
  if containsSub status "idle".data || containsSub status "ready".data ||
      containsSub status "complete".data then
    { cs with store := setStreaming false (setStatus .idle cs.store) }
  else if containsSub status "thinking".data then
    { cs with store := setStatus .thinking cs.store }
  else if containsSub status "executing".data then
    { cs with store := setStatus .executing cs.store }
  else if containsSub status "cancel".data || containsSub status "denied".data then
    { cs with store := setStreaming false (setStatus .idle cs.store) }
  else cs

/-- `agent-tool-result` listener: append a formatted `tool` message and
clear the streaming flag.  The timer is untouched. -/
def handleToolResult (newId newTs : Nat) (tool result : String)
    (cs : ControllerState) : ControllerState :=
  let content := "**" ++ tool ++ "**\n```\n" ++ result ++ "\n```"
  { cs with store := setStreaming false (addMessage newId newTs .tool content cs.store) }

/-- `agent-approval-request` listener. -/
def handleApprovalRequest (tool args : String) (cs : ControllerState) : ControllerState :=
  { cs with store := setPendingTool (some ⟨tool, args⟩) cs.store }

/-- `agent-stream-end` listener: force idle, stop streaming, disarm the
timer. -/
def handleStreamEnd (cs : ControllerState) : ControllerState :=
  clearStreamingTimeout
    { cs with store := setStreaming false (setStatus .idle cs.store) }

/-- `agent-error` listener: same transition as stream end. -/
def handleAgentError (cs : ControllerState) : ControllerState :=
  clearStreamingTimeout
    { cs with store := setStreaming false (setStatus .idle cs.store) }

/-- The armed timeout firing (`resetStreamingTimeout`'s callback):
force idle and stop streaming; the fired timeout is no longer
pending. -/
def fireStreamingTimeout (cs : ControllerState) : ControllerState :=
  { cs with
    store := setStreaming false (setStatus .idle cs.store)
    timer := none }

/-- `cancelAgent` (`useAgent.ts` lines 473-482): invoke the backend
cancel; only when that call resolves does the local reset run.  A
rejected call is caught and merely logged, leaving the store as it
was.  `ok` models whether `invoke('cancel_agent_task')` succeeded. -/
def cancelAgent (ok : Bool) (s : AgentState) : AgentState :=
  if ok then setPendingTool none (setStreaming false (setStatus .idle s))
  else s

/- The request-deduplication guard
(`useRequestDeduplication` in `useRequestDeduplication.ts`). -/

/-- `MIN_REQUEST_INTERVAL_MS`: default minimum time between requests. -/
def MIN_REQUEST_INTERVAL_MS : Int := 500

structure RequestState where
  isSubmitting : Bool
  lastRequestTime : Int
deriving DecidableEq, Repr

/-- The guard's initial ref value. -/
def initialRequestState : RequestState :=
  { isSubmitting := false, lastRequestTime := 0 }

/-- `options?.minInterval ?? MIN_REQUEST_INTERVAL_MS`. -/
def resolveMinInterval (o : Option Int) : Int :=
  o.getD MIN_REQUEST_INTERVAL_MS

/-- The synchronous prefix of `executeRequest` up to the `await fn()`
suspension point: `none` when the call is skipped (already submitting,
or too soon after the last accepted start); otherwise the state as it
stands while the action is in flight (`isSubmitting := true`,
`lastRequestTime := now`). -/
def tryBegin (now minInterval : Int) (st : RequestState) : Option RequestState :=
  if st.isSubmitting then none
  else if now - st.lastRequestTime < minInterval then none
  else some { isSubmitting := true, lastRequestTime := now }

/-- The `finally` block of `executeRequest`: runs when the action's
promise settles and releases the in-flight flag. -/
def settleRequest (st : RequestState) : RequestState :=
  { st with isSubmitting := false }

/-- `executeRequest` viewed end-to-end for an action returning `r`:
`none` paired with the untouched state when skipped, otherwise `some r`
with the settled state. -/
def executeRequest {α : Type} (now minInterval : Int) (r : α)
    (st : RequestState) : Option α × RequestState :=
  match tryBegin now minInterval st with
  | none => (none, st)
  | some st' => (some r, settleRequest st')

/- Concrete states used by witnesses and counterexamples. -/

def sliceEx : AgentSlice :=
  { mode := .turbo
    status := .executing
    isStreaming := true
    thinkingText := "analyzing code"
    tokenCount := 57 }

def cancelFailState : AgentState :=
  { initialAgentState with
    status := .thinking
    isStreaming := true
    pendingTool := some ⟨"write_file", "path=a.ts"⟩ }

def armedControllerState : ControllerState :=
  { store := { initialAgentState with status := .thinking, isStreaming := true }
    timer := some STREAMING_TIMEOUT_MS }

/-- C3: `setStatus('idle')` clears `thinkingText` and resets
`tokenCount` regardless of mode; any non-idle status leaves both
unchanged (`createAgentSlice.setStatus`). -/
theorem C3_idle_clears_scratch (s : AgentSlice) (st : AgentStatus) :
    ((AgentSlice.setStatus .idle s).thinkingText = "" ∧
     (AgentSlice.setStatus .idle s).tokenCount = 0) ∧
    (st ≠ .idle →
      (AgentSlice.setStatus st s).thinkingText = s.thinkingText ∧
      (AgentSlice.setStatus st s).tokenCount = s.tokenCount ∧
      (AgentSlice.setStatus st s).status = st) := by
  refine ⟨⟨rfl, rfl⟩, fun h => ?_⟩
  simp [AgentSlice.setStatus, h]

/-- Witness for C3 at a concrete turbo-mode slice. -/
theorem C3_idle_clears_scratch_witness :
    ((AgentSlice.setStatus .idle sliceEx).thinkingText = "" ∧
     (AgentSlice.setStatus .idle sliceEx).tokenCount = 0) ∧
    ((AgentSlice.setStatus .thinking sliceEx).thinkingText = "analyzing code" ∧
     (AgentSlice.setStatus .thinking sliceEx).tokenCount = 57) := by
  have h := C3_idle_clears_scratch sliceEx .thinking
  have h2 := h.2 (by decide)
  exact ⟨h.1, h2.1, h2.2.1⟩

/-- C10: the `agent-streaming` listener with payload `false` only
clears `isStreaming`; every other store field and the timer are
untouched.  With payload `true` it also forces status `thinking`. -/
theorem C10_streaming_false_neutral (cs : ControllerState) :
    ((handleStreaming false cs).store.isStreaming = false ∧
     (handleStreaming false cs).store.status = cs.store.status ∧
     (handleStreaming false cs).store.thinkingText = cs.store.thinkingText ∧
     (handleStreaming false cs).store.messages = cs.store.messages ∧
     (handleStreaming false cs).store.pendingTool = cs.store.pendingTool ∧
     (handleStreaming false cs).store.mode = cs.store.mode ∧
     (handleStreaming false cs).store.connectionMode = cs.store.connectionMode ∧
     (handleStreaming false cs).store.isModelLoaded = cs.store.isModelLoaded ∧
     (handleStreaming false cs).store.modelLoadProgress = cs.store.modelLoadProgress ∧
     (handleStreaming false cs).store.setupStatus = cs.store.setupStatus ∧
     (handleStreaming false cs).store.downloadProgress = cs.store.downloadProgress ∧
     (handleStreaming false cs).store.detectedGpu = cs.store.detectedGpu ∧
     (handleStreaming false cs).store.openFiles = cs.store.openFiles ∧
     (handleStreaming false cs).store.activeFileIndex = cs.store.activeFileIndex ∧
     (handleStreaming false cs).store.conversations = cs.store.conversations ∧
     (handleStreaming false cs).store.currentConversationId =
       cs.store.currentConversationId ∧
     (handleStreaming false cs).timer = cs.timer) ∧
    ((handleStreaming true cs).store.isStreaming = true ∧
     (handleStreaming true cs).store.status = .thinking) := by
  constructor
  · refine ⟨rfl, rfl, rfl, rfl, rfl, rfl, rfl, rfl, rfl, rfl, rfl, rfl, rfl, rfl,
      rfl, rfl, rfl⟩
  · exact ⟨rfl, rfl⟩

/-- C4 counterexample: when the backend cancel call fails, `cancelAgent`
leaves the state exactly as it was — status stays `thinking`,
`isStreaming` stays true and the pending tool survives — so the local
reset is not applied regardless of backend failure. -/
theorem C4_cancel_counterexample :
    cancelAgent false cancelFailState = cancelFailState ∧
    cancelFailState.status = .thinking ∧
    cancelFailState.isStreaming = true ∧
    cancelFailState.pendingTool ≠ none := by
  refine ⟨rfl, rfl, rfl, ?_⟩
  decide

/-- C4 (amended): `cancelAgent` resets status to idle, stops streaming
and clears the pending tool only when the backend cancel call succeeds;
a failed call leaves the store unchanged. -/
theorem C4_cancel_effect (s : AgentState) :
    ((cancelAgent true s).status = .idle ∧
     (cancelAgent true s).isStreaming = false ∧
     (cancelAgent true s).pendingTool = none ∧
     (cancelAgent true s).messages = s.messages ∧
     (cancelAgent true s).openFiles = s.openFiles ∧
     (cancelAgent true s).mode = s.mode) ∧
    cancelAgent false s = s := by
  exact ⟨⟨rfl, rfl, rfl, rfl, rfl, rfl⟩, rfl⟩

/-- Whatever branch the status-normalization handler takes, it never
touches the inactivity timer. -/
lemma handleAgentStatus_timer (p : String) (cs : ControllerState) :
    (handleAgentStatus p cs).timer = cs.timer := by
  unfold handleAgentStatus
  simp only []
  repeat' split
  all_goals rfl

/-- C2 counterexample: with the inactivity timer armed, an
`agent-status` event and an `agent-tool-result` event both leave the
timer armed — they do not disarm it as the claim states. -/
theorem C2_timer_counterexample :
    (handleAgentStatus "executing" armedControllerState).timer =
      some STREAMING_TIMEOUT_MS ∧
    (handleToolResult 7 7 "read_file" "ok" armedControllerState).timer =
      some STREAMING_TIMEOUT_MS := by
  constructor
  · rw [handleAgentStatus_timer]; rfl
  · rfl

/-- C2 (amended): the timeout constant is 120000 ms; `agent-thinking`
and `agent-stream-chunk` re-arm the timer for the full window;
`agent-stream-end` and `agent-error` disarm it; `agent-status` and
`agent-tool-result` leave it exactly as it was; and the timer firing
forces status idle and `isStreaming = false`. -/
theorem C2_timer_discipline (cs : ControllerState) (p : String)
    (newId newTs : Nat) (tool result : String) :
    STREAMING_TIMEOUT_MS = 120000 ∧
    (handleThinking p cs).timer = some STREAMING_TIMEOUT_MS ∧
    (handleStreamChunk newId newTs p cs).timer = some STREAMING_TIMEOUT_MS ∧
    (handleAgentStatus p cs).timer = cs.timer ∧
    (handleToolResult newId newTs tool result cs).timer = cs.timer ∧
    (handleStreamEnd cs).timer = none ∧
    (handleAgentError cs).timer = none ∧
    (fireStreamingTimeout cs).store.status = .idle ∧
    (fireStreamingTimeout cs).store.isStreaming = false ∧
    (fireStreamingTimeout cs).timer = none := by
  exact ⟨rfl, rfl, rfl, handleAgentStatus_timer p cs, rfl, rfl, rfl, rfl, rfl, rfl⟩

def statusCS : ControllerState :=
  { store := { initialAgentState with status := .executing, isStreaming := true }
    timer := none }

/-- C5: the `agent-status` handler lower-cases the payload and
normalizes it by prioritized substring match: idle/ready/complete win
and force idle + not streaming, then thinking, then executing, then
cancel/denied (idle + not streaming); any other payload changes
nothing. -/
theorem C5_status_normalization (payload : String) (cs : ControllerState) :
    ((containsSub (lowerCh payload) "idle".data || containsSub (lowerCh payload) "ready".data ||
        containsSub (lowerCh payload) "complete".data) = true →
      (handleAgentStatus payload cs).store.status = .idle ∧
      (handleAgentStatus payload cs).store.isStreaming = false) ∧
    ((containsSub (lowerCh payload) "idle".data || containsSub (lowerCh payload) "ready".data ||
        containsSub (lowerCh payload) "complete".data) = false →
      containsSub (lowerCh payload) "thinking".data = true →
      (handleAgentStatus payload cs).store.status = .thinking ∧
      (handleAgentStatus payload cs).store.isStreaming = cs.store.isStreaming) ∧
    ((containsSub (lowerCh payload) "idle".data || containsSub (lowerCh payload) "ready".data ||
        containsSub (lowerCh payload) "complete".data) = false →
      containsSub (lowerCh payload) "thinking".data = false →
      containsSub (lowerCh payload) "executing".data = true →
      (handleAgentStatus payload cs).store.status = .executing ∧
      (handleAgentStatus payload cs).store.isStreaming = cs.store.isStreaming) ∧
    ((containsSub (lowerCh payload) "idle".data || containsSub (lowerCh payload) "ready".data ||
        containsSub (lowerCh payload) "complete".data) = false →
      containsSub (lowerCh payload) "thinking".data = false →
      containsSub (lowerCh payload) "executing".data = false →
      (containsSub (lowerCh payload) "cancel".data ||
        containsSub (lowerCh payload) "denied".data) = true →
      (handleAgentStatus payload cs).store.status = .idle ∧
      (handleAgentStatus payload cs).store.isStreaming = false) ∧
    ((containsSub (lowerCh payload) "idle".data || containsSub (lowerCh payload) "ready".data ||
        containsSub (lowerCh payload) "complete".data) = false →
      containsSub (lowerCh payload) "thinking".data = false →
      containsSub (lowerCh payload) "executing".data = false →
      (containsSub (lowerCh payload) "cancel".data ||
        containsSub (lowerCh payload) "denied".data) = false →
      handleAgentStatus payload cs = cs) := by
  refine ⟨fun h1 => ?_, fun h1 h2 => ?_, fun h1 h2 h3 => ?_, fun h1 h2 h3 h4 => ?_,
    fun h1 h2 h3 h4 => ?_⟩
  · simp [handleAgentStatus, h1, setStatus, setStreaming]
  · simp [handleAgentStatus, h1, h2, setStatus, setStreaming]
  · simp [handleAgentStatus, h1, h2, h3, setStatus, setStreaming]
  · simp [handleAgentStatus, h1, h2, h3, h4, setStatus, setStreaming]
  · simp [handleAgentStatus, h1, h2, h3, h4]

/-- Witness for C5 on five concrete payloads, one per branch. -/
theorem C5_status_normalization_witness :
    ((handleAgentStatus "Task Complete" statusCS).store.status = .idle ∧
     (handleAgentStatus "Task Complete" statusCS).store.isStreaming = false) ∧
    ((handleAgentStatus "Thinking..." statusCS).store.status = .thinking ∧
     (handleAgentStatus "Thinking..." statusCS).store.isStreaming = true) ∧
    ((handleAgentStatus "now executing tool" statusCS).store.status = .executing) ∧
    ((handleAgentStatus "Cancelled by user" statusCS).store.status = .idle ∧
     (handleAgentStatus "Cancelled by user" statusCS).store.isStreaming = false) ∧
    handleAgentStatus "banana" statusCS = statusCS := by
  have h1 := (C5_status_normalization "Task Complete" statusCS).1 (by decide)
  have h2 := (C5_status_normalization "Thinking..." statusCS).2.1 (by decide) (by decide)
  have h3 :=
    (C5_status_normalization "now executing tool" statusCS).2.2.1 (by decide) (by decide)
      (by decide)
  have h4 :=
    (C5_status_normalization "Cancelled by user" statusCS).2.2.2.1 (by decide) (by decide)
      (by decide) (by decide)
  have h5 :=
    (C5_status_normalization "banana" statusCS).2.2.2.2 (by decide) (by decide)
      (by decide) (by decide)
  exact ⟨h1, ⟨h2.1, h2.2⟩, h3.1, h4, h5⟩

/-- C8: `executeRequest` skips (returns the null signal, runs nothing)
when a prior action is in flight or fewer than `minInterval` ms have
passed since the last accepted start; otherwise it runs the action,
records the accepted start time, and holds the in-flight flag until the
action settles — while it is held every further call is skipped. -/
theorem C8_request_dedup {α : Type} (now minInterval : Int) (st : RequestState) (r : α) :
    ((st.isSubmitting = true ∨ now - st.lastRequestTime < minInterval) →
      tryBegin now minInterval st = none ∧
      executeRequest now minInterval r st = (none, st)) ∧
    (st.isSubmitting = false → minInterval ≤ now - st.lastRequestTime →
      tryBegin now minInterval st =
        some { isSubmitting := true, lastRequestTime := now } ∧
      executeRequest now minInterval r st =
        (some r, { isSubmitting := false, lastRequestTime := now }) ∧
      (∀ now2 mi2 : Int,
        tryBegin now2 mi2 { isSubmitting := true, lastRequestTime := now } = none) ∧
      (settleRequest { isSubmitting := true, lastRequestTime := now }).isSubmitting =
        false) := by
  constructor
  · intro h
    have ht : tryBegin now minInterval st = none := by
      unfold tryBegin
      rcases h with h | h
      · simp [h]
      · rcases Bool.eq_false_or_eq_true st.isSubmitting with hs | hs
        · simp [hs, h]
        · simp [hs, h]
    exact ⟨ht, by simp [executeRequest, ht]⟩
  · intro h1 h2
    have ht : tryBegin now minInterval st =
        some { isSubmitting := true, lastRequestTime := now } := by
      unfold tryBegin
      rw [if_neg (by simp [h1]), if_neg (by omega)]
    refine ⟨ht, by simp [executeRequest, ht, settleRequest], fun now2 mi2 => ?_, rfl⟩
    unfold tryBegin
    simp

/-- Witness for C8: a fresh guard accepts a call at t=1000ms with the
default 500ms interval, and while that call is in flight a second call
at t=1999ms is skipped. -/
theorem C8_request_dedup_witness :
    tryBegin 1000 500 initialRequestState =
      some { isSubmitting := true, lastRequestTime := 1000 } ∧
    executeRequest 1000 500 (42 : Nat) initialRequestState =
      (some 42, { isSubmitting := false, lastRequestTime := 1000 }) ∧
    tryBegin 1999 500 { isSubmitting := true, lastRequestTime := 1000 } = none := by
  have h := (C8_request_dedup 1000 500 initialRequestState (42 : Nat)).2 (by rfl)
    (by decide)
  exact ⟨h.1, h.2.1, h.2.2.1 1999 500⟩

/-- A sequence of `agent-stream-chunk` payloads applied through the
store operation, each with its own fresh id and timestamp:
`runChunks [(id1, ts1, c1), ...]` folds `updateStreamingMessage` left
to right. -/
def runChunks (inputs : List (Nat × Nat × String)) (s : AgentState) : AgentState :=
  inputs.foldl (fun st q => updateStreamingMessage q.1 q.2.1 q.2.2 st) s

/-- When the last message has role `model`, `updateStreamingMessage`
replaces its content in place. -/
lemma update_model_last (newId newTs : Nat) (c : String) (s : AgentState)
    (orig : List Message) (m : Message) (hm : s.messages = orig ++ [m])
    (hr : m.role = .model) :
    (updateStreamingMessage newId newTs c s).messages =
      orig ++ [{ m with content := c }] := by
  unfold updateStreamingMessage
  rw [hm]
  have hl : (orig ++ [m]).getLast? = some m := by simp
  rw [hl]
  simp [hr]

/-- When the last message is not a `model` message (or there is none),
`updateStreamingMessage` appends a fresh `model` message. -/
lemma update_nonmodel_last (newId newTs : Nat) (c : String) (s : AgentState)
    (h : ∀ m, s.messages.getLast? = some m → m.role ≠ .model) :
    (updateStreamingMessage newId newTs c s).messages =
      s.messages ++ [⟨newId, .model, c, newTs⟩] := by
  unfold updateStreamingMessage
  cases hl : s.messages.getLast? with
  | none => rfl
  | some m =>
    have hr := h m hl
    simp [hr]

/-- The last element of a mapped cons: drop the head into the
default. -/
lemma getLastD_map_cons {α β : Type} (f : α → β) (p : α) (rest : List α) (d : β) :
    ((p :: rest).map f).getLastD d = (rest.map f).getLastD (f p) := by
  cases rest
  · simp
  · simp [List.getLastD_cons, List.getLast?_cons]

/-- Folding chunks over a state whose last message is a `model`
message keeps every earlier message and only rewrites that last
message's content to the final chunk. -/
lemma runChunks_model_last (inputs : List (Nat × Nat × String)) :
    ∀ (s : AgentState) (orig : List Message) (m : Message), m.role = .model →
      s.messages = orig ++ [m] →
      (runChunks inputs s).messages =
        orig ++ [{ m with content := (inputs.map (fun q => q.2.2)).getLastD m.content }] := by
  induction inputs with
  | nil =>
    intro s orig m _ hm
    simpa [runChunks] using hm
  | cons p rest ih =>
    intro s orig m hr hm
    have h1 : (updateStreamingMessage p.1 p.2.1 p.2.2 s).messages =
        orig ++ [{ m with content := p.2.2 }] :=
      update_model_last p.1 p.2.1 p.2.2 s orig m hm hr
    have h2 := ih (updateStreamingMessage p.1 p.2.1 p.2.2 s) orig
      { m with content := p.2.2 } hr h1
    have hc := getLastD_map_cons (fun q : Nat × Nat × String => q.2.2) p rest m.content
    rw [show runChunks (p :: rest) s =
        runChunks rest (updateStreamingMessage p.1 p.2.1 p.2.2 s) from rfl, hc]
    exact h2

/-- C1: starting from a message list whose last entry is not a `model`
message, a non-empty chunk sequence appends exactly one `model` message
whose final content is the last chunk, leaving all earlier messages
unchanged; and when the last message already is a `model` message, a
chunk replaces its content in place. -/
theorem C1_streaming_tail_merge :
    (∀ (s : AgentState) (p : Nat × Nat × String) (rest : List (Nat × Nat × String)),
      (∀ m, s.messages.getLast? = some m → m.role ≠ .model) →
      (runChunks (p :: rest) s).messages =
        s.messages ++
          [{ id := p.1, role := .model,
             content := ((p :: rest).map (fun q => q.2.2)).getLastD "",
             timestamp := p.2.1 }]) ∧
    (∀ (s : AgentState) (orig : List Message) (m : Message) (newId newTs : Nat)
      (c : String), s.messages = orig ++ [m] → m.role = .model →
      (updateStreamingMessage newId newTs c s).messages =
        orig ++ [{ m with content := c }]) := by
  constructor
  · intro s p rest h
    have h1 := update_nonmodel_last p.1 p.2.1 p.2.2 s h
    have h2 := runChunks_model_last rest (updateStreamingMessage p.1 p.2.1 p.2.2 s)
      s.messages ⟨p.1, .model, p.2.2, p.2.1⟩ rfl h1
    have hc := getLastD_map_cons (fun q : Nat × Nat × String => q.2.2) p rest ""
    rw [show runChunks (p :: rest) s =
        runChunks rest (updateStreamingMessage p.1 p.2.1 p.2.2 s) from rfl, hc]
    exact h2
  · exact fun s orig m newId newTs c hm hr => update_model_last newId newTs c s orig m hm hr

def chatState : AgentState :=
  { initialAgentState with messages := [⟨0, .user, "fix the bug", 5⟩] }

/-- Witness for C1: two chunks after a user message produce exactly one
trailing model message carrying the last chunk, and a further chunk on
a model tail rewrites it in place. -/
theorem C1_streaming_tail_merge_witness :
    (runChunks [(1, 6, "He"), (2, 7, "Hello")] chatState).messages =
      [⟨0, .user, "fix the bug", 5⟩, ⟨1, .model, "Hello", 6⟩] ∧
    (updateStreamingMessage 3 8 "Hello world"
        { chatState with
          messages := [⟨0, .user, "fix the bug", 5⟩, ⟨1, .model, "Hello", 6⟩] }).messages =
      [⟨0, .user, "fix the bug", 5⟩, ⟨1, .model, "Hello world", 6⟩] := by
  constructor
  · have h := C1_streaming_tail_merge.1 chatState (1, 6, "He") [(2, 7, "Hello")] (by
      intro m hm
      have hme : m = ⟨0, .user, "fix the bug", 5⟩ := by
        simp [chatState, initialAgentState] at hm
        exact hm.symm
      rw [hme]
      decide)
    simpa [chatState, initialAgentState] using h
  · have h := C1_streaming_tail_merge.2
      { chatState with
        messages := [⟨0, .user, "fix the bug", 5⟩, ⟨1, .model, "Hello", 6⟩] }
      [⟨0, .user, "fix the bug", 5⟩] ⟨1, .model, "Hello", 6⟩ 3 8 "Hello world"
      (by simp) rfl
    simpa using h

/- Index arithmetic for the JS-style helpers. -/

/-- A filter that skips only position `index` changes nothing when the
running index already passed `index`. -/
lemma filterExceptIdx_of_lt {α : Type} (index : Int) :
    ∀ (l : List α) (start : Int), index < start → filterExceptIdx index start l = l := by
  intro l
  induction l with
  | nil => intro start _; rfl
  | cons x xs ih =>
    intro start h
    unfold filterExceptIdx
    rw [if_neg (by omega), ih (start + 1) (by omega)]

/-- `filterExceptIdx` at offset `start + n` erases the `n`-th element. -/
lemma filterExceptIdx_eraseIdx {α : Type} :
    ∀ (l : List α) (start : Int) (n : Nat),
      filterExceptIdx (start + n) start l = l.eraseIdx n := by
  intro l
  induction l with
  | nil => intro start n; rfl
  | cons x xs ih =>
    intro start n
    unfold filterExceptIdx
    cases n with
    | zero =>
      rw [if_pos (by omega)]
      simpa [List.eraseIdx] using filterExceptIdx_of_lt start xs (start + 1) (by omega)
    | succ k =>
      rw [if_neg (by omega)]
      have : start + ((k : Nat) + 1 : Nat) = (start + 1) + (k : Nat) := by push_cast; omega
      rw [this, ih (start + 1) k]
      rfl

/-- `filterExceptIdx` from 0 at a non-negative index is `eraseIdx`. -/
lemma filterExceptIdx_zero {α : Type} (l : List α) (i : Int) (h : 0 ≤ i) :
    filterExceptIdx i 0 l = l.eraseIdx i.toNat := by
  have h2 := filterExceptIdx_eraseIdx l 0 i.toNat
  rw [show ((0 : Int) + (i.toNat : Int)) = i by omega] at h2
  exact h2

/-- An index-targeted map misses every position when the index is
outside `[start, start + length)`. -/
lemma mapAtIdx_of_out {α : Type} (index : Int) (g : α → α) :
    ∀ (l : List α) (start : Int),
      (index < start ∨ start + (l.length : Int) ≤ index) →
      mapAtIdx index g start l = l := by
  intro l
  induction l with
  | nil => intro start _; rfl
  | cons x xs ih =>
    intro start h
    have hlen : ((x :: xs).length : Int) = (xs.length : Int) + 1 := by
      simp [List.length_cons]
    have h2 : index < start ∨ start + (xs.length : Int) + 1 ≤ index := by
      rcases h with h | h
      · exact Or.inl h
      · rw [hlen] at h; exact Or.inr (by omega)
    unfold mapAtIdx
    rcases h2 with h2 | h2
    · rw [if_neg (by omega)]
      rw [ih (start + 1) (Or.inl (by omega))]
    · rw [if_neg (by omega)]
      rw [ih (start + 1) (Or.inr (by omega))]

/-- `findIndexFrom` misses entirely when nothing matches. -/
lemma findIndexFrom_of_none {α : Type} (pr : α → Bool) :
    ∀ (l : List α) (i : Int), (∀ x ∈ l, pr x = false) →
      findIndexFrom pr i l = -1 := by
  intro l
  induction l with
  | nil => intro i _; rfl
  | cons x xs ih =>
    intro i h
    unfold findIndexFrom
    rw [if_neg (by simp [h x (by simp)]), ih (i + 1) (fun y hy => h y (by simp [hy]))]

/-- `findIndexFrom` finds the first match: with the prefix all failing
and `f` matching, it answers the prefix length offset by the start. -/
lemma findIndexFrom_first {α : Type} (pr : α → Bool) (f : α) (l₂ : List α)
    (hf : pr f = true) :
    ∀ (l₁ : List α) (i : Int), (∀ x ∈ l₁, pr x = false) →
      findIndexFrom pr i (l₁ ++ f :: l₂) = i + l₁.length := by
  intro l₁
  induction l₁ with
  | nil =>
    intro i _
    unfold findIndexFrom
    rw [List.nil_append]
    simp [hf]
  | cons x xs ih =>
    intro i h
    rw [List.cons_append]
    unfold findIndexFrom
    rw [if_neg (by simp [h x (by simp)])]
    rw [ih (i + 1) (fun y hy => h y (by simp [hy]))]
    have hlen : ((x :: xs).length : Int) = (xs.length : Int) + 1 := by simp
    rw [hlen]
    omega

/-- A list counting exactly one match splits around that unique
matching element. -/
lemma countP_one_split {α : Type} (pr : α → Bool) :
    ∀ (l : List α), l.countP pr = 1 →
      ∃ l₁ f l₂, l = l₁ ++ f :: l₂ ∧ pr f = true ∧
        (∀ x ∈ l₁, pr x = false) ∧ (∀ x ∈ l₂, pr x = false) := by
  intro l
  induction l with
  | nil => intro h; simp [List.countP_nil] at h
  | cons x xs ih =>
    intro h
    rw [List.countP_cons] at h
    by_cases hx : pr x = true
    · rw [if_pos hx] at h
      have h0 : xs.countP pr = 0 := by omega
      refine ⟨[], x, xs, by simp, hx, by simp, ?_⟩
      intro y hy
      have := List.countP_eq_zero.mp h0 y hy
      simpa using this
    · rw [if_neg hx] at h
      obtain ⟨l₁, f, l₂, hsplit, hfm, hl₁, hl₂⟩ := ih (by omega)
      refine ⟨x :: l₁, f, l₂, by rw [hsplit]; rfl, hfm, ?_, hl₂⟩
      intro y hy
      rcases List.mem_cons.mp hy with hy | hy
      · rw [hy]; simpa using hx
      · exact hl₁ y hy

/-- C6: with a valid active index and an in-range close index,
`closeFile` erases exactly the chosen entry; the active index lands
`-1` exactly when the list empties, otherwise stays in range,
decremented (clamped at 0) exactly when the closed index was at or
before it. -/
theorem C6_close_index_recomputation (s : AgentState) (i : Int)
    (ha : 0 ≤ s.activeFileIndex ∧ s.activeFileIndex < (s.openFiles.length : Int))
    (hi : 0 ≤ i ∧ i < (s.openFiles.length : Int)) :
    (closeFile i s).openFiles = s.openFiles.eraseIdx i.toNat ∧
    ((closeFile i s).openFiles = [] ↔ s.openFiles.length = 1) ∧
    ((closeFile i s).openFiles = [] → (closeFile i s).activeFileIndex = -1) ∧
    ((closeFile i s).openFiles ≠ [] →
      0 ≤ (closeFile i s).activeFileIndex ∧
      (closeFile i s).activeFileIndex < ((closeFile i s).openFiles.length : Int) ∧
      (closeFile i s).activeFileIndex =
        if i ≤ s.activeFileIndex then max 0 (s.activeFileIndex - 1)
        else s.activeFileIndex) := by
  obtain ⟨ha0, ha1⟩ := ha
  obtain ⟨hi0, hi1⟩ := hi
  have hnf : filterExceptIdx i 0 s.openFiles = s.openFiles.eraseIdx i.toNat :=
    filterExceptIdx_zero s.openFiles i hi0
  have htn : i.toNat < s.openFiles.length := by omega
  have hlen : (s.openFiles.eraseIdx i.toNat).length = s.openFiles.length - 1 := by
    rw [List.length_eraseIdx, if_pos htn]
  have hof : (closeFile i s).openFiles = s.openFiles.eraseIdx i.toNat := by
    show filterExceptIdx i 0 s.openFiles = _
    exact hnf
  have hai : (closeFile i s).activeFileIndex =
      if filterExceptIdx i 0 s.openFiles = ([] : List EditorFile) then -1
      else if i ≤ s.activeFileIndex then max 0 (s.activeFileIndex - 1)
      else s.activeFileIndex := rfl
  rw [hnf] at hai
  have hemp : s.openFiles.eraseIdx i.toNat = [] ↔ s.openFiles.length = 1 := by
    rw [← List.length_eq_zero, hlen]
    omega
  refine ⟨hof, by rw [hof]; exact hemp, ?_, ?_⟩
  · intro he
    rw [hof] at he
    rw [hai, if_pos he]
  · intro hne
    rw [hof] at hne
    rw [hai, if_neg hne]
    have hlen2 : (1 : Int) ≤ ((s.openFiles.eraseIdx i.toNat).length : Int) := by
      have := List.length_pos.mpr hne
      omega
    rw [hof, hlen]
    have hcast : ((s.openFiles.length - 1 : Nat) : Int) = (s.openFiles.length : Int) - 1 := by
      omega
    rw [hcast]
    by_cases hle : i ≤ s.activeFileIndex
    · rw [if_pos hle]
      refine ⟨le_max_left 0 _, ?_, rfl⟩
      rw [max_lt_iff]
      constructor
      · rw [hlen, hcast] at hlen2
        omega
      · omega
    · rw [if_neg hle]
      exact ⟨ha0, by omega, rfl⟩

def fileA : EditorFile :=
  { path := "/p/a.ts", name := "a.ts", language := "typescript", content := none,
    isModified := false, source := .user }

def fileB : EditorFile :=
  { path := "/p/b.rs", name := "b.rs", language := "rust", content := none,
    isModified := false, source := .user }

def fileC : EditorFile :=
  { path := "/p/c.py", name := "c.py", language := "python", content := none,
    isModified := false, source := .agent }

def threeFileState : AgentState :=
  { initialAgentState with openFiles := [fileA, fileB, fileC], activeFileIndex := 2 }

def oneFileState : AgentState :=
  { initialAgentState with openFiles := [fileC], activeFileIndex := 0 }

/-- Witness for C6: closing index 0 of [A,B,C] with active index 2
gives [B,C] with active index 1; closing the last remaining file gives
active index -1. -/
theorem C6_close_index_recomputation_witness :
    (closeFile 0 threeFileState).openFiles = [fileB, fileC] ∧
    (closeFile 0 threeFileState).activeFileIndex = 1 ∧
    (closeFile 0 oneFileState).openFiles = [] ∧
    (closeFile 0 oneFileState).activeFileIndex = -1 := by
  have h3 := C6_close_index_recomputation threeFileState 0 (by constructor <;> decide)
    (by constructor <;> decide)
  have h1 := C6_close_index_recomputation oneFileState 0 (by constructor <;> decide)
    (by constructor <;> decide)
  have h3of : (closeFile 0 threeFileState).openFiles = [fileB, fileC] := by
    rw [h3.1]; rfl
  have h1of : (closeFile 0 oneFileState).openFiles = [] := by
    rw [h1.1]; rfl
  refine ⟨h3of, ?_, h1of, h1.2.2.1 h1of⟩
  have := (h3.2.2.2 (by rw [h3of]; simp)).2.2
  rw [this]
  decide

/-- C7 counterexample: `setActiveFile` does not validate its index — on
a one-file list, `setActiveFile 5` leaves the list non-empty with the
active index referring outside it. -/
theorem C7_totality_counterexample :
    (setActiveFile 5 oneFileState).openFiles ≠ [] ∧
    ¬ ((setActiveFile 5 oneFileState).activeFileIndex <
        (((setActiveFile 5 oneFileState).openFiles.length : Int))) := by
  constructor
  · decide
  · decide

/-- C7 (amended): all store mutations are total functions; out-of-range
indices leave `updateFileContent` and `markFileSaved` as no-ops, leave
`closeFile`'s file list unchanged (with the active index kept in range;
an index at or past the end on a non-empty list is a full no-op) — but
`setActiveFile` stores its index unvalidated. -/
theorem C7_mutation_totality (s : AgentState) (i : Int) (c : String)
    (hout : i < 0 ∨ (s.openFiles.length : Int) ≤ i)
    (hinv : s.openFiles ≠ [] →
      0 ≤ s.activeFileIndex ∧ s.activeFileIndex < (s.openFiles.length : Int)) :
    updateFileContent i c s = s ∧
    markFileSaved i s = s ∧
    (closeFile i s).openFiles = s.openFiles ∧
    ((closeFile i s).openFiles ≠ [] →
      0 ≤ (closeFile i s).activeFileIndex ∧
      (closeFile i s).activeFileIndex < ((closeFile i s).openFiles.length : Int)) ∧
    (s.openFiles ≠ [] → (s.openFiles.length : Int) ≤ i → closeFile i s = s) := by
  have hout0 : i < 0 ∨ (0 : Int) + (s.openFiles.length : Int) ≤ i := by
    rcases hout with h | h
    · exact Or.inl h
    · exact Or.inr (by omega)
  have hfil : filterExceptIdx i 0 s.openFiles = s.openFiles := by
    rcases hout with h | h
    · exact filterExceptIdx_of_lt i s.openFiles 0 h
    · have h0 : (0 : Int) ≤ i := by
        have := Int.ofNat_nonneg s.openFiles.length
        omega
      rw [filterExceptIdx_zero s.openFiles i h0]
      exact List.eraseIdx_of_length_le (by omega)
  have hupd : updateFileContent i c s = s := by
    show { s with openFiles := mapAtIdx i _ 0 s.openFiles } = s
    rw [mapAtIdx_of_out i _ s.openFiles 0 hout0]
  have hsav : markFileSaved i s = s := by
    show { s with openFiles := mapAtIdx i _ 0 s.openFiles } = s
    rw [mapAtIdx_of_out i _ s.openFiles 0 hout0]
  have hof : (closeFile i s).openFiles = s.openFiles := by
    show filterExceptIdx i 0 s.openFiles = _
    exact hfil
  have hai : (closeFile i s).activeFileIndex =
      if filterExceptIdx i 0 s.openFiles = ([] : List EditorFile) then -1
      else if i ≤ s.activeFileIndex then max 0 (s.activeFileIndex - 1)
      else s.activeFileIndex := rfl
  rw [hfil] at hai
  refine ⟨hupd, hsav, hof, ?_, ?_⟩
  · intro hne
    rw [hof] at hne
    obtain ⟨ia0, ia1⟩ := hinv hne
    rw [hai, if_neg hne, hof]
    by_cases hle : i ≤ s.activeFileIndex
    · rw [if_pos hle]
      refine ⟨le_max_left 0 _, ?_⟩
      rw [max_lt_iff]
      constructor <;> omega
    · rw [if_neg hle]
      exact ⟨ia0, ia1⟩
  · intro hne hge
    obtain ⟨ia0, ia1⟩ := hinv hne
    have hend : closeFile i s =
        { s with openFiles := filterExceptIdx i 0 s.openFiles,
                 activeFileIndex :=
                   if filterExceptIdx i 0 s.openFiles = ([] : List EditorFile) then -1
                   else if i ≤ s.activeFileIndex then max 0 (s.activeFileIndex - 1)
                   else s.activeFileIndex } := rfl
    rw [hend, hfil, if_neg hne, if_neg (by omega)]

/-- Witness for C7 on a three-file list with index 5. -/
theorem C7_mutation_totality_witness :
    updateFileContent 5 "new text" threeFileState = threeFileState ∧
    markFileSaved 5 threeFileState = threeFileState ∧
    closeFile 5 threeFileState = threeFileState := by
  have h := C7_mutation_totality threeFileState 5 "new text"
    (Or.inr (by decide)) (fun _ => by constructor <;> decide)
  exact ⟨h.1, h.2.1, h.2.2.2.2 (by decide) (by decide)⟩

/-- Opening a path that is already open (uniquely) activates the
existing entry and leaves the file list untouched. -/
lemma openFile_existing (t : AgentState) (p : String) (src : FileSource)
    (c : Option String)
    (h1 : t.openFiles.countP (fun f => f.path == p) = 1) :
    (openFile p src c t).openFiles = t.openFiles ∧
    (∃ f, getAtInt (openFile p src c t).openFiles
        (openFile p src c t).activeFileIndex = some f ∧ f.path = p) := by
  obtain ⟨l₁, f, l₂, hsplit, hf, hl₁, hl₂⟩ := countP_one_split _ _ h1
  have hidx : findIndexFrom (fun g => g.path == p) 0 t.openFiles = (l₁.length : Int) := by
    rw [hsplit]
    have h := findIndexFrom_first (fun g => g.path == p) f l₂ hf l₁ 0 hl₁
    rw [h]
    omega
  have hopen : openFile p src c t = { t with activeFileIndex := (l₁.length : Int) } := by
    simp only [openFile]
    rw [hidx, if_pos (Int.ofNat_nonneg _)]
  have htn : ((l₁.length : Int)).toNat = l₁.length := by omega
  have hget : t.openFiles.get? l₁.length = some f := by
    rw [hsplit, List.get?_append_right (le_refl _)]
    simp
  refine ⟨by rw [hopen], f, ?_, beq_iff_eq.mp hf⟩
  rw [hopen]
  show getAtInt t.openFiles ((l₁.length : Int)) = some f
  unfold getAtInt
  rw [if_pos (Int.ofNat_nonneg _), htn]
  exact hget

/-- Opening a path with no current entry appends a fresh entry and
makes it active. -/
lemma openFile_new (t : AgentState) (p : String) (src : FileSource)
    (c : Option String)
    (h0 : t.openFiles.countP (fun f => f.path == p) = 0) :
    (openFile p src c t).openFiles.countP (fun f => f.path == p) = 1 ∧
    (∃ f, getAtInt (openFile p src c t).openFiles
        (openFile p src c t).activeFileIndex = some f ∧ f.path = p) := by
  have hallf : ∀ x ∈ t.openFiles, (fun g : EditorFile => g.path == p) x = false := by
    intro x hx
    have h := List.countP_eq_zero.mp h0 x hx
    simpa using h
  have hidx : findIndexFrom (fun g : EditorFile => g.path == p) 0 t.openFiles = -1 :=
    findIndexFrom_of_none _ t.openFiles 0 hallf
  have hopen : openFile p src c t =
      { t with
        openFiles := t.openFiles ++
          [{ path := p, name := getFileName p, language := detectLanguage p,
             content := c, isModified := false, source := src }]
        activeFileIndex := (t.openFiles.length : Int) } := by
    simp only [openFile]
    rw [hidx, if_neg (by omega)]
  have htn : ((t.openFiles.length : Int)).toNat = t.openFiles.length := by omega
  constructor
  · rw [hopen]
    show (t.openFiles ++ [_]).countP _ = 1
    rw [List.countP_append, h0]
    simp [List.countP_cons]
  · refine ⟨⟨p, getFileName p, detectLanguage p, c, false, src⟩, ?_, rfl⟩
    rw [hopen]
    show getAtInt (t.openFiles ++ [_]) ((t.openFiles.length : Int)) = _
    unfold getAtInt
    rw [if_pos (Int.ofNat_nonneg _), htn]
    exact List.get?_concat_length t.openFiles _

/-- C9: with at most one entry for path `p`, opening `p` yields exactly
one entry with that path and the active index points at it; a second
open leaves the file list unchanged (activating the existing entry
instead of appending a duplicate) and still points at it. -/
theorem C9_open_idempotence (s : AgentState) (p : String) (src src2 : FileSource)
    (c c2 : Option String)
    (h : s.openFiles.countP (fun f => f.path == p) ≤ 1) :
    (openFile p src c s).openFiles.countP (fun f => f.path == p) = 1 ∧
    (∃ f, getAtInt (openFile p src c s).openFiles
        (openFile p src c s).activeFileIndex = some f ∧ f.path = p) ∧
    (openFile p src2 c2 (openFile p src c s)).openFiles =
      (openFile p src c s).openFiles ∧
    (∃ f, getAtInt (openFile p src2 c2 (openFile p src c s)).openFiles
        (openFile p src2 c2 (openFile p src c s)).activeFileIndex =
      some f ∧ f.path = p) := by
  rcases Nat.le_one_iff_eq_zero_or_eq_one.mp h with h0 | h1
  · obtain ⟨hcnt, hex⟩ := openFile_new s p src c h0
    obtain ⟨hof2, hex2⟩ := openFile_existing (openFile p src c s) p src2 c2 hcnt
    exact ⟨hcnt, hex, hof2, hex2⟩
  · obtain ⟨hof1, hex1⟩ := openFile_existing s p src c h1
    have hcnt1 : (openFile p src c s).openFiles.countP (fun f => f.path == p) = 1 := by
      rw [hof1]
      exact h1
    obtain ⟨hof2, hex2⟩ := openFile_existing (openFile p src c s) p src2 c2 hcnt1
    exact ⟨hcnt1, hex1, hof2, hex2⟩

/-- Witness for C9: opening the same path twice on the fresh store. -/
theorem C9_open_idempotence_witness :
    (openFile "/p/a.ts" .user none initialAgentState).openFiles.countP
      (fun f => f.path == "/p/a.ts") = 1 ∧
    (openFile "/p/a.ts" .agent none
        (openFile "/p/a.ts" .user none initialAgentState)).openFiles =
      (openFile "/p/a.ts" .user none initialAgentState).openFiles := by
  have h := C9_open_idempotence initialAgentState "/p/a.ts" .user .agent none none
    (by decide)
  exact ⟨h.1, h.2.2.1⟩
